import Mathlib

/-!
Verification of the Fuel Margin Dashboard repository.

This file is a shallow embedding of the repository's core logic:

* `normalize_df` (src/sql-data/app.py): column-name canonicalization and
  promotion of the `week` column to a sorted row key;
* `fetch_table` / `buildQuery` (src/sql-data/app.py): the date-windowed
  warehouse query and its normalization;
* `make_graph_component` (src/sql-data/app.py) / `make_graph`
  (src/generated-data/app.py): the chart builder;
* `update_graphs` (src/sql-data/app.py): the panel update cycle with its
  catch-all error boundary;
* `generate_net_margin`, `generate_margin_impacting_components`
  (src/generated-data/data.py): the Gaussian-noise mock generators, with
  the numpy global RNG modelled as explicit threaded state.

Machine floats of the generators are modelled over `Int`; dates are day
numbers (`Nat`). Character-level string processing mirrors the pandas
pipeline `str.lower().str.strip().str.replace(" ", "_")` followed by
deletion of characters outside `[0-9a-zA-Z_]`.
-/

/-- A single table cell: an integer, a raw string, or a calendar date
(day number). Mirrors the value kinds flowing through the pandas frames. -/
inductive Cell where
  | int (n : Int)
  | str (s : String)
  | date (d : Nat)
  deriving DecidableEq, Repr

/-- ASCII code of a character. -/
def code (c : Char) : Nat := c.toNat

/-- Characters kept by the regex deletion step `[^0-9a-zA-Z_]` of
`normalize_df`: digits, upper-case letters, lower-case letters, underscore. -/
def isLegalChar (c : Char) : Bool :=
  (48 ≤ code c && code c ≤ 57) || (65 ≤ code c && code c ≤ 90) ||
    (97 ≤ code c && code c ≤ 122) || code c = 95

/-- Characters stripped by `str.strip()` (ASCII whitespace). -/
def isStrippable (c : Char) : Bool :=
  code c = 32 || code c = 9 || code c = 10 || code c = 13 || code c = 11 || code c = 12

/-- ASCII lower-casing of one character, as done by `str.lower()`. -/
def lowerChar (c : Char) : Char :=
  if 65 ≤ code c ∧ code c ≤ 90 then Char.ofNat (code c + 32) else c

/-- The space-to-underscore rewrite `str.replace(" ", "_")`. -/
def spaceToUnderscore (c : Char) : Char :=
  if c = ' ' then '_' else c

/-- Drop leading and trailing strippable characters, as `str.strip()`. -/
def stripChars (l : List Char) : List Char :=
  ((l.dropWhile isStrippable).reverse.dropWhile isStrippable).reverse

/-- Column-name normalization pipeline of `normalize_df`, on character
lists: lower-case, strip, spaces to underscores, delete illegal characters. -/
def normNameList (l : List Char) : List Char :=
  ((stripChars (l.map lowerChar)).map spaceToUnderscore).filter isLegalChar

/-- Column-name normalization of `normalize_df`, on strings. -/
def normName (s : String) : String :=
  String.mk (normNameList s.data)

/-- A pandas DataFrame as used by the app: column names, a row index
(default integer positions, or `week` day numbers once promoted), and
row-major cell data. -/
structure DataFrame where
  cols : List String
  index : List Nat
  rows : List (List Cell)
  deriving DecidableEq, Repr

/-- Model of `pd.to_datetime` on one cell: dates pass through, non-negative
integers are read as dates, digit-only strings parse, anything else fails. -/
def pd_to_datetime (c : Cell) : Option Nat :=
  match c with
  | .date d => some d
  | .int n => if n < 0 then none else some n.toNat
  | .str s =>
      if s.data ≠ [] ∧ s.data.all Char.isDigit then
        some (s.data.foldl (fun a c => 10 * a + (code c - 48)) 0)
      else none

/-- Parse the `week` entry (position `i`) of one row and split it off:
the parsed key paired with the remaining value cells. -/
def parseRow (i : Nat) (r : List Cell) : Option (Nat × List Cell) :=
  match (r.get? i).bind pd_to_datetime with
  | some d => some (d, r.eraseIdx i)
  | none => none

/-- Parse the `week` column across all rows; fails if any value fails,
as `pd.to_datetime` raises on the whole column. -/
def parseRows (i : Nat) : List (List Cell) → Option (List (Nat × List Cell))
  | [] => some []
  | r :: rs =>
      match parseRow i r, parseRows i rs with
      | some p, some ps => some (p :: ps)
      | _, _ => none

/-- Comparison used by `sort_index`: order keyed rows by their `week` key. -/
def keyOrder (a b : Nat × List Cell) : Prop := a.1 ≤ b.1

instance : DecidableRel keyOrder := fun a b => Nat.decLe a.1 b.1

instance : IsTotal (Nat × List Cell) keyOrder := ⟨fun a b => Nat.le_total a.1 b.1⟩

instance : IsTrans (Nat × List Cell) keyOrder := ⟨fun _ _ _ => Nat.le_trans⟩

/-- `normalize_df` from src/sql-data/app.py: rewrite the column names with
`normName`; if a `week` column then exists, parse it, promote it to the
index, and sort rows by it. A duplicated `week` column or an unparseable
`week` value makes the pandas code raise, modelled as `none`. -/
def normalize_df (df : DataFrame) : Option DataFrame :=
  let cols := df.cols.map normName
  if "week" ∈ cols then
    if cols.count "week" = 1 then
      match parseRows (cols.indexOf "week") df.rows with
      | some keyed =>
          let sorted := List.insertionSort keyOrder keyed
          some ⟨cols.eraseIdx (cols.indexOf "week"), sorted.map Prod.fst,
                sorted.map Prod.snd⟩
      | none => none
    else none
  else some ⟨cols, df.index, df.rows⟩

/-- A warehouse table under `reggie_pierce.apps_workshop`: its value column
names and its rows, each row a `week` day number with the value cells. -/
structure WarehouseTable where
  valueCols : List String
  rows : List (Nat × List Cell)
  deriving DecidableEq, Repr

/-- The single quote character, used when assembling SQL literals. -/
def sqChar : String := String.singleton (Char.ofNat 39)

/-- The query text assembled by `fetch_table`: the table identifier is
interpolated verbatim, the dates appear as quoted literals. -/
def buildQuery (table_name start_s end_s : String) : String :=
  "SELECT * FROM reggie_pierce.apps_workshop." ++ table_name ++
    " WHERE week BETWEEN DATE(" ++ sqChar ++ start_s ++ sqChar ++ ") AND DATE(" ++
    sqChar ++ end_s ++ sqChar ++ ") ORDER BY week"

/-- Effect of the query on a warehouse table: keep the rows whose `week`
lies in `[s, e]`, order them by `week`, and return a DataFrame whose first
column is `week` followed by the table's value columns (a fresh integer
index, as `pd.read_sql` produces). -/
def runQuery (t : WarehouseTable) (s e : Nat) : DataFrame :=
  let matched := List.insertionSort keyOrder
    (t.rows.filter (fun r => s ≤ r.1 && r.1 ≤ e))
  ⟨"week" :: t.valueCols, List.range matched.length,
   matched.map (fun r => Cell.date r.1 :: r.2)⟩

/-- `fetch_table` from src/sql-data/app.py: run the windowed query for the
named table (the warehouse is a map from identifiers to tables) and
normalize the result. No validation is applied to `table_name`; the query
text sent is `buildQuery table_name ...`. -/
def fetch_table (db : String → WarehouseTable) (table_name : String)
    (s e : Nat) : Option DataFrame :=
  normalize_df (runQuery (db table_name) s e)

/-- One plotted line: legend name, x values (the row index), y values. -/
structure Series where
  name : String
  x : List Nat
  y : List Cell
  deriving DecidableEq, Repr

/-- A chart description: either the empty-data placeholder (title plus the
no-data message) or a titled list of line series. -/
inductive Chart where
  | placeholder (title msg : String)
  | lines (title : String) (series : List Series)
  deriving DecidableEq, Repr

/-- The line series carried by a chart; a placeholder carries none. -/
def Chart.seriesList : Chart → List Series
  | .placeholder _ _ => []
  | .lines _ s => s

/-- Column extraction `df[col]` by position. -/
def getColumn (df : DataFrame) (i : Nat) : List Cell :=
  df.rows.map (fun r => r.getD i (Cell.int 0))

/-- `make_graph_component` from src/sql-data/app.py (identical logic to
`make_graph` in src/generated-data/app.py): an empty frame renders as the
placeholder, otherwise one `Scatter` line per column with x the index,
y the column values and the column name as legend label. -/
def make_graph_component (df : DataFrame) (title : String) : Chart :=
  if df.rows.isEmpty || df.cols.isEmpty then
    .placeholder title "No data for selected date range"
  else
    .lines title ((List.range df.cols.length).map
      (fun i => ⟨df.cols.getD i "", df.index, getColumn df i⟩))

/-- What the `update_graphs` callback returns: either the grid of charts or
the red error banner. -/
inductive Page where
  | graphs (charts : List Chart)
  | errorBanner (msg : String)
  deriving DecidableEq, Repr

/-- The six fixed panels: warehouse table identifier and display title. -/
def panelTables : List (String × String) :=
  [("gallons", "Gallons"), ("net_margin", "Net Margin"),
   ("market_pricing", "Market Pricing"), ("transactions", "Transactions"),
   ("margin_components", "Margin Impacting Components"),
   ("market_price_delta", "Market Price Delta")]

/-- Sequentially fetch each panel's table; the first raised exception
aborts the remaining fetches, as in the `try` block of `update_graphs`. -/
def fetchAll (fetch : String → Except String DataFrame) :
    List (String × String) → Except String (List (DataFrame × String))
  | [] => .ok []
  | p :: ps =>
      match fetch p.1 with
      | .ok df =>
          match fetchAll fetch ps with
          | .ok rest => .ok ((df, p.2) :: rest)
          | .error e => .error e
      | .error e => .error e

/-- `update_graphs` from src/sql-data/app.py, over an abstract fetch that
may raise (connection, query, or data-format failure modelled as
`Except.error`): fetch all six panels and render them; any failure is
caught and turned into the error banner. -/
def update_graphs (fetch : String → Except String DataFrame) : Page :=
  match fetchAll fetch panelTables with
  | .ok dfs => .graphs (dfs.map (fun q => make_graph_component q.1 q.2))
  | .error e => .errorBanner ("Error loading data: " ++ e)

/-- The numpy global RNG state, threaded implicitly through every
`np.random.normal` call: modelled as the count of draws made so far. -/
abbrev Rng := Nat

/-- Model of the k-th standard-normal draw of the global RNG: a fixed
state-indexed value (distinct positions give varying values, as the real
Mersenne Twister stream does). -/
def normalDraw (k : Nat) : Int := (k : Int) % 7 - 3

/-- Model of `np.random.normal(mu, sigma, n)`: n draws taken from the
global stream, advancing the state by n. -/
def np_random_normal (mu sigma : Int) (n : Nat) (st : Rng) :
    List Int × Rng :=
  ((List.range n).map (fun i => mu + sigma * normalDraw (st + i)), st + n)

/-- Assemble column vectors into row-major cells, as the DataFrame
constructor does for a dict of equal-length arrays. -/
def colsToRows (cs : List (List Int)) (n : Nat) : List (List Cell) :=
  (List.range n).map (fun i => cs.map (fun c => Cell.int (c.getD i 0)))

/-- `generate_net_margin` from src/generated-data/data.py: five
Gaussian-noise series indexed by `weeks`, drawn sequentially from the
global RNG. -/
def generate_net_margin (weeks : List Nat) (st : Rng) : DataFrame × Rng :=
  let n := weeks.length
  let d1 := np_random_normal 8000 300 n st
  let d2 := np_random_normal 7000 400 n d1.2
  let d3 := np_random_normal 6000 500 n d2.2
  let d4 := np_random_normal 5000 300 n d3.2
  let d5 := np_random_normal 4000 200 n d4.2
  (⟨["All Hives", "Detlor Off", "Retail Minus", "CCC", "Funded"], weeks,
    colsToRows [d1.1, d2.1, d3.1, d4.1, d5.1] n⟩, d5.2)

/-- `generate_margin_impacting_components` from src/generated-data/data.py:
two Gaussian-noise series indexed by `weeks`. -/
def generate_margin_impacting_components (weeks : List Nat) (st : Rng) :
    DataFrame × Rng :=
  let n := weeks.length
  let d1 := np_random_normal 2500 50 n st
  let d2 := np_random_normal 2450 40 n d1.2
  (⟨["Component A", "Component B"], weeks, colsToRows [d1.1, d2.1] n⟩, d2.2)

/-- An upper-case ASCII letter. -/
def isUpperAscii (c : Char) : Bool := 65 ≤ code c && code c ≤ 90

/-! ### Concrete fixtures used by the witnesses and counterexamples -/

/-- A small warehouse table with one value column and one row. -/
def gallonsTable : WarehouseTable := ⟨["gallons_sold"], [(10, [Cell.int 5])]⟩

/-- A warehouse serving `gallonsTable` for every identifier. -/
def exDb : String → WarehouseTable := fun _ => gallonsTable

/-- A table identifier carrying SQL-injection characters. -/
def badName : String := "gallons; DROP TABLE users --"

/-- A fetch environment in which the `net_margin` fetch raises. -/
def fetchBoom : String → Except String DataFrame :=
  fun t => if t = "net_margin" then .error "boom" else .ok ⟨[], [], []⟩

/-- A concrete 2-column, 2-row frame for the chart-builder witness. -/
def exDF7 : DataFrame :=
  ⟨["a", "b"], [1, 2], [[Cell.int 5, Cell.int 6], [Cell.int 7, Cell.int 8]]⟩

/-! ### Character-level lemmas about the normalization pipeline -/

theorem lowerChar_not_upper (c : Char) :
    ¬(65 ≤ code (lowerChar c) ∧ code (lowerChar c) ≤ 90) := by
  unfold lowerChar
  by_cases h : 65 ≤ code c ∧ code c ≤ 90
  · rw [if_pos h]
    have hc : code (Char.ofNat (code c + 32)) = code c + 32 := by
      have hv : (code c + 32).isValidChar := Or.inl (by omega)
      unfold Char.ofNat
      rw [dif_pos hv]
      rfl
    omega
  · rw [if_neg h]; exact h

theorem mem_stripChars {c : Char} {l : List Char} (h : c ∈ stripChars l) :
    c ∈ l := by
  unfold stripChars at h
  rw [List.mem_reverse] at h
  have h1 := (List.dropWhile_sublist isStrippable).subset h
  rw [List.mem_reverse] at h1
  exact (List.dropWhile_sublist isStrippable).subset h1

theorem mem_normNameList {c : Char} {l : List Char} (h : c ∈ normNameList l) :
    isLegalChar c = true ∧ isUpperAscii c = false := by
  unfold normNameList at h
  rw [List.mem_filter] at h
  obtain ⟨hmem, hleg⟩ := h
  rw [List.mem_map] at hmem
  obtain ⟨d, hd, rfl⟩ := hmem
  by_cases hsp : d = ' '
  · subst hsp; decide
  · have hs : spaceToUnderscore d = d := by rw [spaceToUnderscore, if_neg hsp]
    rw [hs] at hleg ⊢
    have hd1 := mem_stripChars hd
    rw [List.mem_map] at hd1
    obtain ⟨e, _, rfl⟩ := hd1
    have hnu := lowerChar_not_upper e
    refine ⟨hleg, ?_⟩
    simp only [isUpperAscii, Bool.and_eq_true, decide_eq_true_eq,
      Bool.and_eq_false_iff, decide_eq_false_iff_not]
    omega

theorem normName_chars (s : String) :
    ∀ c ∈ (normName s).data, isLegalChar c = true ∧ isUpperAscii c = false :=
  fun _ hc => mem_normNameList hc

theorem dropWhile_eq_self_of (p : Char → Bool) (l : List Char)
    (h : ∀ c ∈ l, p c = false) : l.dropWhile p = l := by
  cases l with
  | nil => rfl
  | cons a as => simp [List.dropWhile_cons, h a (List.mem_cons_self a as)]

theorem stripChars_eq_self (l : List Char)
    (h : ∀ c ∈ l, isStrippable c = false) : stripChars l = l := by
  unfold stripChars
  rw [dropWhile_eq_self_of _ _ h,
    dropWhile_eq_self_of _ _ (fun c hc => h c (List.mem_reverse.mp hc)),
    List.reverse_reverse]

theorem normNameList_fixpoint (l : List Char)
    (h : ∀ c ∈ l, isLegalChar c = true ∧ isUpperAscii c = false) :
    normNameList l = l := by
  have hlegal : ∀ c ∈ l,
      (48 ≤ code c ∧ code c ≤ 57) ∨ (97 ≤ code c ∧ code c ≤ 122) ∨
        code c = 95 := by
    intro c hc
    have h1 := (h c hc).1
    have h2 := (h c hc).2
    simp only [isLegalChar, Bool.or_eq_true, Bool.and_eq_true,
      decide_eq_true_eq] at h1
    simp only [isUpperAscii, Bool.and_eq_false_iff, decide_eq_false_iff_not] at h2
    omega
  unfold normNameList
  have hlow : l.map lowerChar = l := by
    rw [show l.map lowerChar = l.map id from
      List.map_congr_left (fun a ha => by
        have := hlegal a ha
        rw [lowerChar, if_neg (by omega)]; rfl), List.map_id]
  rw [hlow, stripChars_eq_self l (fun c hc => by
    have := hlegal c hc
    simp only [isStrippable, Bool.or_eq_false_iff, decide_eq_false_iff_not]
    omega)]
  rw [show l.map spaceToUnderscore = l.map id from
    List.map_congr_left (fun a ha => by
      have := hlegal a ha
      have hne : a ≠ ' ' := by
        intro he; rw [he] at this; simp [code] at this
      rw [spaceToUnderscore, if_neg hne]; rfl), List.map_id]
  exact List.filter_eq_self.mpr (fun a ha => (h a ha).1)

theorem normName_idem (s : String) : normName (normName s) = normName s := by
  show String.mk (normNameList (normNameList s.data)) =
    String.mk (normNameList s.data)
  rw [normNameList_fixpoint _ (fun c hc => mem_normNameList hc)]

/-- Claim C1: for every raw column name, `normName` (the column renaming of
`normalize_df`) yields a name whose characters all lie in `[A-Za-z0-9_]`
and contain no upper-case letter; and on the raw columns
`[" Week ", "All Hives", "Retail-Minus!"]` it yields exactly
`["week", "all_hives", "retailminus"]`, deleting illegal punctuation. -/
theorem claim_C1 :
    (∀ (s : String), ∀ c ∈ (normName s).data,
        isLegalChar c = true ∧ isUpperAscii c = false) ∧
      List.map normName [" Week ", "All Hives", "Retail-Minus!"] =
        ["week", "all_hives", "retailminus"] :=
  ⟨fun s => normName_chars s, by decide⟩

/-- Witness for C1 at a concrete character of a concrete normalized name. -/
theorem claim_C1_witness :
    isLegalChar 'w' = true ∧ isUpperAscii 'w' = false :=
  claim_C1.1 " Week " 'w' (by decide)

/-! ### Inversion lemmas for `normalize_df` -/

theorem not_mem_eraseIdx_indexOf (l : List String)
    (h : l.count "week" = 1) : "week" ∉ l.eraseIdx (l.indexOf "week") := by
  induction l with
  | nil => simp
  | cons a as ih =>
      by_cases ha : a = "week"
      · subst ha
        have h0 : as.count "week" = 0 := by
          rw [List.count_cons_self] at h; omega
        have hnm : "week" ∉ as := List.count_eq_zero.mp h0
        simpa [List.indexOf_cons] using hnm
      · have hc : as.count "week" = 1 := by
          rw [List.count_cons] at h
          simpa [ha, fun he : "week" = a => ha he.symm] using h
        have hidx : (a :: as).indexOf "week" = as.indexOf "week" + 1 := by
          simp [List.indexOf_cons, ha]
        rw [hidx, List.eraseIdx_cons_succ, List.mem_cons]
        rintro (he | hm)
        · exact ha he.symm
        · exact ih hc hm

theorem normalize_df_noweek (df : DataFrame)
    (hw : "week" ∉ df.cols.map normName) :
    normalize_df df = some ⟨df.cols.map normName, df.index, df.rows⟩ := by
  simp only [normalize_df]
  rw [if_neg hw]

theorem normalize_df_week_inv (df df' : DataFrame)
    (h : normalize_df df = some df')
    (hw : "week" ∈ df.cols.map normName) :
    ∃ keyed,
      (df.cols.map normName).count "week" = 1 ∧
      parseRows ((df.cols.map normName).indexOf "week") df.rows = some keyed ∧
      df' = ⟨(df.cols.map normName).eraseIdx
               ((df.cols.map normName).indexOf "week"),
             (List.insertionSort keyOrder keyed).map Prod.fst,
             (List.insertionSort keyOrder keyed).map Prod.snd⟩ := by
  simp only [normalize_df] at h
  rw [if_pos hw] at h
  by_cases hc : (df.cols.map normName).count "week" = 1
  · rw [if_pos hc] at h
    cases hp : parseRows ((df.cols.map normName).indexOf "week") df.rows with
    | none => rw [hp] at h; cases h
    | some keyed =>
        rw [hp] at h
        injection h with h
        exact ⟨keyed, hc, rfl, h.symm⟩
  · rw [if_neg hc] at h; cases h

theorem map_normName_fixpoint {l : List String}
    (h : ∀ s ∈ l, ∃ t, s = normName t) : l.map normName = l := by
  rw [show l.map normName = l.map id from
    List.map_congr_left (fun a ha => by
      obtain ⟨t, rfl⟩ := h a ha
      exact normName_idem t), List.map_id]

/-- Claim C5: normalization is idempotent: whenever `normalize_df`
succeeds, running it again on the result is the identity (the columns are
already fixed points of the renaming and the `week` column is gone). -/
theorem claim_C5 (df df' : DataFrame) (h : normalize_df df = some df') :
    normalize_df df' = some df' := by
  by_cases hw : "week" ∈ df.cols.map normName
  · obtain ⟨keyed, hc, hp, rfl⟩ := normalize_df_week_inv df df' h hw
    have hsub : ∀ s ∈ (df.cols.map normName).eraseIdx
        ((df.cols.map normName).indexOf "week"), ∃ t, s = normName t := by
      intro s hs
      have hm : s ∈ df.cols.map normName :=
        (List.eraseIdx_sublist _ _).subset hs
      rw [List.mem_map] at hm
      obtain ⟨t, _, ht⟩ := hm
      exact ⟨t, ht.symm⟩
    have hfix := map_normName_fixpoint hsub
    have hnw := not_mem_eraseIdx_indexOf _ hc
    have h2 : normalize_df
        ⟨(df.cols.map normName).eraseIdx ((df.cols.map normName).indexOf "week"),
         (List.insertionSort keyOrder keyed).map Prod.fst,
         (List.insertionSort keyOrder keyed).map Prod.snd⟩ =
        some ⟨((df.cols.map normName).eraseIdx
                ((df.cols.map normName).indexOf "week")).map normName,
              (List.insertionSort keyOrder keyed).map Prod.fst,
              (List.insertionSort keyOrder keyed).map Prod.snd⟩ :=
      normalize_df_noweek _ (by
        show "week" ∉ ((df.cols.map normName).eraseIdx
          ((df.cols.map normName).indexOf "week")).map normName
        rw [hfix]; exact hnw)
    rw [hfix] at h2
    exact h2
  · rw [normalize_df_noweek df hw] at h
    injection h with h
    subst h
    have hsub : ∀ s ∈ df.cols.map normName, ∃ t, s = normName t := by
      intro s hs
      rw [List.mem_map] at hs
      obtain ⟨t, _, ht⟩ := hs
      exact ⟨t, ht.symm⟩
    have hfix := map_normName_fixpoint hsub
    have h2 : normalize_df ⟨df.cols.map normName, df.index, df.rows⟩ =
        some ⟨(df.cols.map normName).map normName, df.index, df.rows⟩ :=
      normalize_df_noweek _ (by
        show "week" ∉ (df.cols.map normName).map normName
        rw [hfix]; exact hw)
    rw [hfix] at h2
    exact h2

/-- Witness for C5: normalizing an already-normalized concrete table is a
no-op. -/
theorem claim_C5_witness :
    normalize_df ⟨["gal"], [4], [[Cell.int 7]]⟩ =
      some ⟨["gal"], [4], [[Cell.int 7]]⟩ :=
  claim_C5 ⟨["Week", "Gal"], [0], [[Cell.date 4, Cell.int 7]]⟩
    ⟨["gal"], [4], [[Cell.int 7]]⟩ (by decide)

/-- Claim C2: if a `week` column exists after renaming and `normalize_df`
succeeds, the result is sorted non-decreasing by its row key and carries
no `week` value column. -/
theorem claim_C2 (df df' : DataFrame) (h : normalize_df df = some df')
    (hw : "week" ∈ df.cols.map normName) :
    List.Pairwise (· ≤ ·) df'.index ∧ "week" ∉ df'.cols := by
  obtain ⟨keyed, hc, hp, rfl⟩ := normalize_df_week_inv df df' h hw
  exact ⟨List.pairwise_map.mpr (List.sorted_insertionSort keyOrder keyed),
    not_mem_eraseIdx_indexOf _ hc⟩

/-- Witness for C2 on a concrete unsorted two-row table. -/
theorem claim_C2_witness :
    List.Pairwise (· ≤ ·) ([3, 9] : List Nat) ∧
      "week" ∉ (["gallons"] : List String) :=
  claim_C2 ⟨["Week", "Gallons"], [0, 1],
      [[Cell.date 9, Cell.int 1], [Cell.date 3, Cell.int 2]]⟩
    ⟨["gallons"], [3, 9], [[Cell.int 2], [Cell.int 1]]⟩ (by decide) (by decide)

/-- Counterexample to claim C6 as stated: duplicate raw `week` values
survive normalization (keys not strictly increasing, not unique), and two
distinct raw names may collide to one normalized name. -/
theorem claim_C6_counterexample :
    normalize_df ⟨["week", "A B", "A_B"], [0, 1],
        [[Cell.date 5, Cell.int 1, Cell.int 2],
         [Cell.date 5, Cell.int 3, Cell.int 4]]⟩ =
      some ⟨["a_b", "a_b"], [5, 5],
        [[Cell.int 1, Cell.int 2], [Cell.int 3, Cell.int 4]]⟩ ∧
    ¬ List.Pairwise (· < ·) ([5, 5] : List Nat) ∧
    ¬ (["a_b", "a_b"] : List String).Nodup :=
  ⟨by decide, by decide, by decide⟩

/-- Claim C6 (amended): after normalization the keys are non-decreasing,
they are strictly increasing whenever they are pairwise distinct, and the
value-column names are unique whenever the renamed raw names were. -/
theorem claim_C6_amended (df df' : DataFrame) (h : normalize_df df = some df')
    (hw : "week" ∈ df.cols.map normName) :
    List.Pairwise (· ≤ ·) df'.index ∧
    (df'.index.Nodup → List.Pairwise (· < ·) df'.index) ∧
    ((df.cols.map normName).Nodup → df'.cols.Nodup) := by
  obtain ⟨keyed, hc, hp, rfl⟩ := normalize_df_week_inv df df' h hw
  have hle : List.Pairwise (· ≤ ·)
      ((List.insertionSort keyOrder keyed).map Prod.fst) :=
    List.pairwise_map.mpr (List.sorted_insertionSort keyOrder keyed)
  refine ⟨hle, fun hnd => ?_,
    fun hnd => List.Nodup.sublist (List.eraseIdx_sublist _ _) hnd⟩
  exact (hle.and hnd).imp (fun hab => lt_of_le_of_ne hab.1 hab.2)

/-- Witness for the amended C6 on a concrete table with distinct weeks and
non-colliding names. -/
theorem claim_C6_amended_witness :
    List.Pairwise (· ≤ ·) ([2, 8] : List Nat) ∧
    (([2, 8] : List Nat).Nodup → List.Pairwise (· < ·) ([2, 8] : List Nat)) ∧
    ((["week", "ccc"] : List String).Nodup →
      (["ccc"] : List String).Nodup) :=
  claim_C6_amended ⟨["Week", "CCC"], [0, 1],
      [[Cell.date 8, Cell.int 1], [Cell.date 2, Cell.int 9]]⟩
    ⟨["ccc"], [2, 8], [[Cell.int 9], [Cell.int 1]]⟩ (by decide) (by decide)

/-! ### Row preservation -/

theorem parseRows_map_snd (i : Nat) (rs : List (List Cell))
    (ps : List (Nat × List Cell)) (h : parseRows i rs = some ps) :
    ps.map Prod.snd = rs.map (fun r => r.eraseIdx i) := by
  induction rs generalizing ps with
  | nil =>
      simp only [parseRows] at h
      injection h with h
      subst h; rfl
  | cons r rs ih =>
      simp only [parseRows] at h
      cases hpr : parseRow i r with
      | none => rw [hpr] at h; cases h
      | some p =>
          rw [hpr] at h
          cases hps : parseRows i rs with
          | none => rw [hps] at h; cases h
          | some ps' =>
              rw [hps] at h
              injection h with h
              subst h
              have hsnd : p.2 = r.eraseIdx i := by
                simp only [parseRow] at hpr
                cases hb : (r.get? i).bind pd_to_datetime with
                | none => rw [hb] at hpr; cases hpr
                | some d =>
                    rw [hb] at hpr
                    injection hpr with hpr
                    rw [← hpr]
              simp [hsnd, ih ps' hps]

/-- Claim C10: `normalize_df` never drops rows and never alters the cells
of the surviving value columns: the output rows are a permutation of the
input rows (with the `week` cell split off when a `week` column exists). -/
theorem claim_C10 (df df' : DataFrame) (h : normalize_df df = some df') :
    df'.rows.length = df.rows.length ∧
    ("week" ∉ df.cols.map normName → df'.rows = df.rows) ∧
    ("week" ∈ df.cols.map normName →
      df'.rows.Perm (df.rows.map
        (fun r => r.eraseIdx ((df.cols.map normName).indexOf "week")))) := by
  by_cases hw : "week" ∈ df.cols.map normName
  · obtain ⟨keyed, hc, hp, rfl⟩ := normalize_df_week_inv df df' h hw
    have hperm : ((List.insertionSort keyOrder keyed).map Prod.snd).Perm
        (keyed.map Prod.snd) :=
      List.Perm.map Prod.snd (List.perm_insertionSort keyOrder keyed)
    have hsnd := parseRows_map_snd _ _ _ hp
    refine ⟨?_, fun hnw => absurd hw hnw, fun _ => ?_⟩
    · have h1 := hperm.length_eq
      rw [hsnd] at h1
      simpa using h1
    · rw [← hsnd]
      exact hperm
  · rw [normalize_df_noweek df hw] at h
    injection h with h
    subst h
    exact ⟨rfl, fun _ => rfl, fun hww => absurd hww hw⟩

/-- Witness for C10 on a concrete two-row table: row count preserved,
output rows a permutation of the input rows minus the `week` cell. -/
theorem claim_C10_witness :
    (DataFrame.mk ["val_x"] [2, 7] [[Cell.int 20], [Cell.int 10]]).rows.length =
      (DataFrame.mk ["Week", "Val X"] [0, 1]
        [[Cell.date 7, Cell.int 10], [Cell.date 2, Cell.int 20]]).rows.length :=
  (claim_C10 ⟨["Week", "Val X"], [0, 1],
      [[Cell.date 7, Cell.int 10], [Cell.date 2, Cell.int 20]]⟩
    ⟨["val_x"], [2, 7], [[Cell.int 20], [Cell.int 10]]⟩ (by decide)).1

/-! ### Windowed fetch -/

/-- Counterexample to claim C3 as stated: an empty date range gives a table
with zero rows, but the value columns of the source table are still
present, so the result does not have zero columns. -/
theorem claim_C3_counterexample :
    fetch_table exDb "gallons" 5 3 = some ⟨["gallons_sold"], [], []⟩ ∧
      (["gallons_sold"] : List String) ≠ [] :=
  ⟨by decide, by decide⟩

/-- Claim C3 (amended): for a start after the end, or a range matching no
rows, `fetch_table` returns (without error) a table with zero rows, whose
columns are the source table's value columns, and rendering it yields the
placeholder chart. -/
theorem claim_C3_amended (db : String → WarehouseTable) (tbl : String)
    (s e : Nat) (title : String)
    (hcols : "week" ∉ (db tbl).valueCols.map normName)
    (hrange : e < s ∨ ∀ r ∈ (db tbl).rows, ¬(s ≤ r.1 ∧ r.1 ≤ e)) :
    ∃ df', fetch_table db tbl s e = some df' ∧ df'.rows = [] ∧
      make_graph_component df' title =
        Chart.placeholder title "No data for selected date range" := by
  have hnomatch : ∀ r ∈ (db tbl).rows, ¬(s ≤ r.1 ∧ r.1 ≤ e) := by
    rcases hrange with hlt | hnm
    · exact fun r _ hin => by omega
    · exact hnm
  have hfilter : (db tbl).rows.filter (fun r => s ≤ r.1 && r.1 ≤ e) = [] := by
    rw [List.filter_eq_nil_iff]
    intro a ha
    have hna := hnomatch a ha
    simp only [Bool.and_eq_true, decide_eq_true_eq]
    tauto
  have hrq : runQuery (db tbl) s e = ⟨"week" :: (db tbl).valueCols, [], []⟩ := by
    unfold runQuery
    rw [hfilter]
    rfl
  refine ⟨⟨(db tbl).valueCols.map normName, [], []⟩, ?_, rfl, rfl⟩
  unfold fetch_table
  rw [hrq]
  have hwk : normName "week" = "week" := by decide
  have hcols2 : ("week" :: (db tbl).valueCols).map normName =
      "week" :: (db tbl).valueCols.map normName := by
    rw [List.map_cons, hwk]
  have hcnt : ("week" :: (db tbl).valueCols.map normName).count "week" = 1 := by
    rw [List.count_cons_self, List.count_eq_zero.mpr hcols]
  have hidx : ("week" :: (db tbl).valueCols.map normName).indexOf "week" = 0 := by
    simp [List.indexOf_cons]
  simp only [normalize_df, hcols2]
  rw [if_pos (List.mem_cons_self _ _), if_pos hcnt, hidx]
  rfl

/-- Witness for the amended C3: a concrete inverted range on a concrete
warehouse. -/
theorem claim_C3_amended_witness :
    ∃ df', fetch_table exDb "gallons" 9 2 = some df' ∧ df'.rows = [] ∧
      make_graph_component df' "Gallons" =
        Chart.placeholder "Gallons" "No data for selected date range" :=
  claim_C3_amended exDb "gallons" 9 2 "Gallons" (by decide) (Or.inl (by decide))

/-- Claim C4 as a fact about the code: `fetch_table` performs no validation
of the table identifier — an identifier with characters outside
`[A-Za-z0-9_]` is embedded verbatim in the query text and the fetch
proceeds rather than failing. -/
theorem claim_C4_code_bug :
    badName.data.all isLegalChar = false ∧
    List.IsInfix badName.data
      (buildQuery badName "2024-01-01" "2025-05-31").data ∧
    (fetch_table exDb badName 0 100).isSome = true :=
  ⟨by decide, by decide, by decide⟩

/-! ### Chart builder -/

/-- Claim C7: the chart builder returns the placeholder on a zero-row
table, and on a non-empty table one series per column, each series having
one point per row, with x the row key, y the column values and the column
name as label. -/
theorem claim_C7 (df : DataFrame) (title : String)
    (hwf : df.index.length = df.rows.length) :
    (df.rows = [] → make_graph_component df title =
      Chart.placeholder title "No data for selected date range") ∧
    (df.rows ≠ [] →
      (make_graph_component df title).seriesList =
        (List.range df.cols.length).map
          (fun i => ⟨df.cols.getD i "", df.index, getColumn df i⟩) ∧
      (make_graph_component df title).seriesList.length = df.cols.length ∧
      ∀ sr ∈ (make_graph_component df title).seriesList,
        sr.x.length = df.rows.length ∧ sr.y.length = df.rows.length) := by
  constructor
  · intro hr
    simp [make_graph_component, hr]
  · intro hr
    have hre : df.rows.isEmpty = false := by
      cases hrows : df.rows with
      | nil => exact absurd hrows hr
      | cons a as => rfl
    have hser : (make_graph_component df title).seriesList =
        (List.range df.cols.length).map
          (fun i => ⟨df.cols.getD i "", df.index, getColumn df i⟩) := by
      cases hcol : df.cols with
      | nil => simp [make_graph_component, hre, hcol, Chart.seriesList]
      | cons a as => simp [make_graph_component, hre, hcol, Chart.seriesList]
    refine ⟨hser, ?_, ?_⟩
    · rw [hser]; simp
    · intro sr hsr
      rw [hser, List.mem_map] at hsr
      obtain ⟨i, _, rfl⟩ := hsr
      exact ⟨hwf, by simp [getColumn]⟩

/-- Witness for C7 on a concrete 2-by-2 frame. -/
theorem claim_C7_witness :
    (make_graph_component exDF7 "T").seriesList.length = exDF7.cols.length :=
  (((claim_C7 exDF7 "T" (by decide)).2 (by decide)).2).1

/-! ### Panel update error boundary -/

theorem fetchAll_error_of_mem (fetch : String → Except String DataFrame)
    (l : List (String × String)) (p : String × String) (e : String)
    (hmem : p ∈ l) (herr : fetch p.1 = .error e) :
    ∃ m, fetchAll fetch l = .error m := by
  induction l with
  | nil => cases hmem
  | cons q qs ih =>
      rw [List.mem_cons] at hmem
      simp only [fetchAll]
      cases hq : fetch q.1 with
      | error e1 => exact ⟨e1, rfl⟩
      | ok df =>
          rcases hmem with rfl | hmem
          · rw [hq] at herr; cases herr
          · obtain ⟨m, hm⟩ := ih hmem
            rw [hm]
            exact ⟨m, rfl⟩

/-- Claim C8: `update_graphs` is total — it returns either the chart grid
or the error banner — and whenever any panel's fetch raises, the result is
the single user-visible error banner, never a propagated exception. -/
theorem claim_C8 (fetch : String → Except String DataFrame) :
    ((∃ m, update_graphs fetch = Page.errorBanner m) ∨
      (∃ cs, update_graphs fetch = Page.graphs cs)) ∧
    (∀ tbl title e, (tbl, title) ∈ panelTables → fetch tbl = .error e →
      ∃ m, update_graphs fetch = Page.errorBanner m) := by
  constructor
  · unfold update_graphs
    cases h : fetchAll fetch panelTables with
    | ok dfs => exact Or.inr ⟨_, rfl⟩
    | error e => exact Or.inl ⟨_, rfl⟩
  · intro tbl title e hmem herr
    obtain ⟨m, hm⟩ :=
      fetchAll_error_of_mem fetch panelTables (tbl, title) e hmem herr
    refine ⟨"Error loading data: " ++ m, ?_⟩
    unfold update_graphs
    rw [hm]

/-- Witness for C8: a concrete environment whose `net_margin` fetch fails
still produces a banner page. -/
theorem claim_C8_witness :
    ∃ m, update_graphs fetchBoom = Page.errorBanner m :=
  (claim_C8 fetchBoom).2 "net_margin" "Net Margin" "boom" (by decide) (by rfl)

/-! ### Synthetic generators -/

/-- Counterexample to claim C9 as stated: the Gaussian generators read the
global RNG state, so two successive invocations with the same `weeks`
produce different tables. -/
theorem claim_C9_counterexample :
    (generate_net_margin [0] 0).1 ≠
      (generate_net_margin [0] (generate_net_margin [0] 0).2).1 ∧
    (generate_margin_impacting_components [0] 0).1 ≠
      (generate_margin_impacting_components [0]
        (generate_margin_impacting_components [0] 0).2).1 :=
  ⟨by decide, by decide⟩

/-- Claim C9 (amended): the Gaussian generators are deterministic given the
global RNG state: with the state fixed, the value columns and the final
state depend only on the number of weeks (the index is the weeks
themselves). -/
theorem claim_C9_amended (w w1 : List Nat) (st : Rng)
    (hlen : w.length = w1.length) :
    ((generate_net_margin w st).1.cols = (generate_net_margin w1 st).1.cols ∧
     (generate_net_margin w st).1.rows = (generate_net_margin w1 st).1.rows ∧
     (generate_net_margin w st).2 = (generate_net_margin w1 st).2) ∧
    ((generate_margin_impacting_components w st).1.cols =
       (generate_margin_impacting_components w1 st).1.cols ∧
     (generate_margin_impacting_components w st).1.rows =
       (generate_margin_impacting_components w1 st).1.rows ∧
     (generate_margin_impacting_components w st).2 =
       (generate_margin_impacting_components w1 st).2) := by
  simp only [generate_net_margin, generate_margin_impacting_components,
    np_random_normal, colsToRows, hlen]
  exact ⟨⟨trivial, trivial, trivial⟩, ⟨trivial, trivial, trivial⟩⟩

/-- Witness for the amended C9 on two week lists of equal length. -/
theorem claim_C9_amended_witness :
    (generate_net_margin [10] 0).1.rows = (generate_net_margin [20] 0).1.rows :=
  ((claim_C9_amended [10] [20] 0 rfl).1).2.1
